import Mathlib

/-!
Verification of `src/examples/fibonacci.py`.

The Python function:

```python
def fibonacci(n):
    if n < 0:
        raise ValueError("n must be non-negative")
    elif n == 0:
        return 0
    elif n == 1:
        return 1
    else:
        a, b = 0, 1
        for _ in range(2, n + 1):
            a, b = b, a + b
        return b
```

Python integers are arbitrary precision, so the input and the running pair
are modelled as `Int`.  The `raise` is modelled as `Except.error` carrying
the message string.  `range(2, n + 1)` performs `n - 1` iterations when
`n ≥ 2`, which is `(n - 1).toNat` in the translation (the loop body is
only reached in the final `else` branch, where `n ≥ 2`).
-/

/-- One iteration of the loop body `a, b = b, a + b`. -/
def fibStep (p : Int × Int) : Int × Int := (p.2, p.1 + p.2)

/-- The `for` loop: iterate `fibStep` a given number of times on the pair. -/
def fibLoop : Nat → Int × Int → Int × Int
  | 0, p => p
  | k + 1, p => fibLoop k (fibStep p)

/-- Shallow embedding of `fibonacci` from `src/examples/fibonacci.py`:
guard `n < 0`, base cases `n == 0` and `n == 1`, otherwise run the loop
starting from `(0, 1)` for the `n - 1` indices of `range(2, n + 1)` and
return the second component. -/
def fibonacci (n : Int) : Except String Int :=
  if n < 0 then Except.error "n must be non-negative"
  else if n = 0 then Except.ok 0
  else if n = 1 then Except.ok 1
  else Except.ok (fibLoop (n - 1).toNat (0, 1)).2

/-- The loop instrumented with an iteration counter: same result as
`fibLoop`, second component counts how many times the body ran. -/
def fibLoopCount : Nat → Int × Int → (Int × Int) × Nat
  | 0, p => (p, 0)
  | k + 1, p => ((fibLoopCount k (fibStep p)).1, (fibLoopCount k (fibStep p)).2 + 1)

/-- `fibonacci` instrumented with the number of loop-body executions:
the error branch and the two base cases run the body zero times. -/
def fibonacciCount (n : Int) : Except String Int × Nat :=
  if n < 0 then (Except.error "n must be non-negative", 0)
  else if n = 0 then (Except.ok 0, 0)
  else if n = 1 then (Except.ok 1, 0)
  else ((Except.ok (fibLoopCount (n - 1).toNat (0, 1)).1.2), (fibLoopCount (n - 1).toNat (0, 1)).2)

/-- A call to `fibonacci` in an ambient mutable world `σ`: the function
touches no state, so the call returns its pure result and the world
unchanged.  This is the embedding of "pure function, no hidden state". -/
def fibonacciCall {σ : Type} (n : Int) (s : σ) : Except String Int × σ :=
  (fibonacci n, s)

/-- The naive recursive Fibonacci reference, written from the spec's words:
F(0)=0, F(1)=1, F(n)=F(n-1)+F(n-2) for n ≥ 2. -/
def fibSpec : Nat → Nat
  | 0 => 0
  | 1 => 1
  | n + 2 => fibSpec n + fibSpec (n + 1)

/-- The spec reference satisfies the defining recurrence. -/
theorem fibSpec_add_two (n : Nat) : fibSpec (n + 2) = fibSpec n + fibSpec (n + 1) := rfl

/-- The spec reference agrees with Mathlib's `Nat.fib`. -/
theorem fibSpec_eq_fib : ∀ n, fibSpec n = Nat.fib n := by
  intro n
  induction n using Nat.strong_induction_on with
  | _ n ih =>
    match n with
    | 0 => rfl
    | 1 => rfl
    | n + 2 =>
      rw [fibSpec_add_two, Nat.fib_add_two, ih n (by omega), ih (n + 1) (by omega)]

/-- Loop invariant: starting from two consecutive Fibonacci values, `k`
iterations advance the pair by `k` positions. -/
theorem fibLoop_adv (k : Nat) : ∀ m : Nat,
    fibLoop k ((fibSpec m : Int), (fibSpec (m + 1) : Int)) =
      ((fibSpec (m + k) : Int), (fibSpec (m + k + 1) : Int)) := by
  induction k with
  | zero => intro m; rfl
  | succ k ih =>
    intro m
    have hstep : fibStep ((fibSpec m : Int), (fibSpec (m + 1) : Int)) =
        ((fibSpec (m + 1) : Int), (fibSpec (m + 2) : Int)) := by
      simp [fibStep, fibSpec_add_two]
    rw [fibLoop, hstep, ih (m + 1)]
    have h1 : m + 1 + k = m + (k + 1) := by omega
    rw [h1]

/-- Main functional correctness: on every non-negative input, `fibonacci`
returns `Except.ok` of the recursive reference value. -/
theorem fibonacci_ok (n : Int) (h : 0 ≤ n) :
    fibonacci n = Except.ok ((fibSpec n.toNat : Nat) : Int) := by
  by_cases h0 : n = 0
  · subst h0; rfl
  by_cases h1 : n = 1
  · subst h1; rfl
  have h2 : 2 ≤ n := by omega
  have hneg : ¬ n < 0 := by omega
  rw [fibonacci, if_neg hneg, if_neg h0, if_neg h1]
  have h01 : ((0 : Int), (1 : Int)) = ((fibSpec 0 : Int), (fibSpec (0 + 1) : Int)) := rfl
  rw [h01, fibLoop_adv ((n - 1).toNat) 0]
  have harg : (n - 1).toNat + 1 = n.toNat := by omega
  rw [Nat.zero_add, harg]

/-- The instrumented loop computes the same pair as `fibLoop`, and counts
exactly its number of iterations. -/
theorem fibLoopCount_spec (k : Nat) : ∀ p : Int × Int,
    (fibLoopCount k p).1 = fibLoop k p ∧ (fibLoopCount k p).2 = k := by
  induction k with
  | zero => intro p; exact ⟨rfl, rfl⟩
  | succ k ih =>
    intro p
    exact ⟨(ih (fibStep p)).1, by rw [fibLoopCount, (ih (fibStep p)).2]⟩

/-- The instrumented function returns the same outcome as `fibonacci`. -/
theorem fibonacciCount_fst (n : Int) : (fibonacciCount n).1 = fibonacci n := by
  by_cases hneg : n < 0
  · rw [fibonacciCount, fibonacci, if_pos hneg, if_pos hneg]
  by_cases h0 : n = 0
  · subst h0; rfl
  by_cases h1 : n = 1
  · subst h1; rfl
  rw [fibonacciCount, fibonacci, if_neg hneg, if_neg hneg, if_neg h0, if_neg h0,
    if_neg h1, if_neg h1, (fibLoopCount_spec ((n - 1).toNat) (0, 1)).1]

/-- C1: for every integer n ≥ 0, `fibonacci` satisfies the mathematical
Fibonacci definition: fibonacci 0 = 0, fibonacci 1 = 1, and for n ≥ 2 the
result at n is the sum of the results at n-1 and n-2. -/
theorem fibonacci_defining_recurrence (n : Int) (h : 2 ≤ n) :
    fibonacci 0 = Except.ok 0 ∧ fibonacci 1 = Except.ok 1 ∧
    ∃ a b c : Int, fibonacci n = Except.ok a ∧ fibonacci (n - 1) = Except.ok b ∧
      fibonacci (n - 2) = Except.ok c ∧ a = b + c := by
  refine ⟨rfl, rfl, ((fibSpec n.toNat : Nat) : Int), ((fibSpec (n - 1).toNat : Nat) : Int),
    ((fibSpec (n - 2).toNat : Nat) : Int),
    fibonacci_ok n (by omega), fibonacci_ok (n - 1) (by omega),
    fibonacci_ok (n - 2) (by omega), ?_⟩
  have h1 : n.toNat = (n - 2).toNat + 2 := by omega
  have h2 : (n - 1).toNat = (n - 2).toNat + 1 := by omega
  rw [h1, h2, fibSpec_add_two]
  push_cast
  ring

/-- Witness for C1 at n = 5. -/
theorem fibonacci_defining_recurrence_w :
    fibonacci 0 = Except.ok 0 ∧ fibonacci 1 = Except.ok 1 ∧
    ∃ a b c : Int, fibonacci 5 = Except.ok a ∧ fibonacci (5 - 1) = Except.ok b ∧
      fibonacci (5 - 2) = Except.ok c ∧ a = b + c :=
  fibonacci_defining_recurrence 5 (by norm_num)

/-- C2: the call fails, with the message "n must be non-negative", exactly
when n < 0, and returns a numeric result exactly when n ≥ 0. -/
theorem fibonacci_fails_iff_neg (n : Int) :
    (fibonacci n = Except.error "n must be non-negative" ↔ n < 0) ∧
    ((∃ v : Int, fibonacci n = Except.ok v) ↔ 0 ≤ n) := by
  constructor
  · constructor
    · intro hE
      by_contra hn
      rw [fibonacci_ok n (by omega)] at hE
      exact Except.noConfusion hE
    · intro hn
      rw [fibonacci, if_pos hn]
  · constructor
    · rintro ⟨v, hv⟩
      by_contra hn
      rw [fibonacci, if_pos (by omega)] at hv
      exact Except.noConfusion hv
    · intro hn
      exact ⟨_, fibonacci_ok n hn⟩

/-- C3: for every integer n ≥ 2, the iterative loop starting from (0, 1)
and stepped n - 1 times yields, in its second component, the value of the
naive recursive reference `fibSpec` at n; `fibonacci` returns exactly that
loop result. -/
theorem iterative_refines_recursive (n : Int) (h : 2 ≤ n) :
    (fibLoop (n - 1).toNat (0, 1)).2 = ((fibSpec n.toNat : Nat) : Int) ∧
    fibonacci n = Except.ok (fibLoop (n - 1).toNat (0, 1)).2 := by
  constructor
  · have h01 : ((0 : Int), (1 : Int)) = ((fibSpec 0 : Int), (fibSpec (0 + 1) : Int)) := rfl
    rw [h01, fibLoop_adv ((n - 1).toNat) 0]
    have harg : (n - 1).toNat + 1 = n.toNat := by omega
    rw [Nat.zero_add, harg]
  · rw [fibonacci, if_neg (show ¬ n < 0 by omega), if_neg (show ¬ n = 0 by omega),
      if_neg (show ¬ n = 1 by omega)]

/-- Witness for C3 at n = 6. -/
theorem iterative_refines_recursive_w :
    (fibLoop ((6 : Int) - 1).toNat (0, 1)).2 = ((fibSpec (6 : Int).toNat : Nat) : Int) ∧
    fibonacci 6 = Except.ok (fibLoop ((6 : Int) - 1).toNat (0, 1)).2 :=
  iterative_refines_recursive 6 (by norm_num)

/-- C4: on every non-negative input, `fibonacci` terminates with a defined
integer result: the error branch is unreachable and there is no other
error path. -/
theorem fibonacci_total_nonneg (n : Int) (h : 0 ≤ n) :
    ∃ v : Int, fibonacci n = Except.ok v :=
  ⟨_, fibonacci_ok n h⟩

/-- Witness for C4 at n = 7. -/
theorem fibonacci_total_nonneg_w : ∃ v : Int, fibonacci 7 = Except.ok v :=
  fibonacci_total_nonneg 7 (by norm_num)

/-- C5: the concrete scenarios fibonacci 2 = 1, fibonacci 5 = 5 and
fibonacci 10 = 55 all hold. -/
theorem fibonacci_concrete_examples :
    fibonacci 2 = Except.ok 1 ∧ fibonacci 5 = Except.ok 5 ∧ fibonacci 10 = Except.ok 55 :=
  ⟨rfl, rfl, rfl⟩

/-- C6: on every negative input, the error is produced with zero loop-body
executions — before any iteration of the Fibonacci computation — and is
returned to the caller uncaught. -/
theorem fibonacci_error_before_loop (n : Int) (h : n < 0) :
    fibonacciCount n = (Except.error "n must be non-negative", 0) ∧
    fibonacci n = Except.error "n must be non-negative" := by
  rw [fibonacciCount, fibonacci, if_pos h, if_pos h]
  exact ⟨rfl, rfl⟩

/-- Witness for C6 at n = -1. -/
theorem fibonacci_error_before_loop_w :
    fibonacciCount (-1) = (Except.error "n must be non-negative", 0) ∧
    fibonacci (-1) = Except.error "n must be non-negative" :=
  fibonacci_error_before_loop (-1) (by norm_num)

/-- C7: `fibonacci` is deterministic and side-effect free: a call in any
ambient world yields the same outcome as in any other world, and leaves
the world unchanged. -/
theorem fibonacci_deterministic_pure (σ : Type) (s₁ s₂ : σ) (n : Int) :
    (fibonacciCall n s₁).1 = (fibonacciCall n s₂).1 ∧ (fibonacciCall n s₁).2 = s₁ :=
  ⟨rfl, rfl⟩

/-- C8: for every integer n ≥ 2, the computation performs exactly n - 1
loop-body executions, a number strictly below n — linear time, with the
loop state a single fixed pair of integers. -/
theorem fibonacci_linear_iterations (n : Int) (h : 2 ≤ n) :
    (fibonacciCount n).2 = n.toNat - 1 ∧ (fibonacciCount n).2 < n.toNat := by
  rw [fibonacciCount, if_neg (show ¬ n < 0 by omega), if_neg (show ¬ n = 0 by omega),
    if_neg (show ¬ n = 1 by omega)]
  have hc := (fibLoopCount_spec ((n - 1).toNat) (0, 1)).2
  constructor
  · rw [hc]; omega
  · rw [hc]; omega

/-- Witness for C8 at n = 9. -/
theorem fibonacci_linear_iterations_w :
    (fibonacciCount 9).2 = (9 : Int).toNat - 1 ∧ (fibonacciCount 9).2 < (9 : Int).toNat :=
  fibonacci_linear_iterations 9 (by norm_num)

/-- C9: the result is monotone non-decreasing in n, strictly increasing
from n = 2 on, non-negative for n ≥ 0 and at least 1 for n ≥ 1. -/
theorem fibonacci_monotone (n : Int) (h : 0 ≤ n) :
    ∃ a b : Int, fibonacci n = Except.ok a ∧ fibonacci (n + 1) = Except.ok b ∧
      a ≤ b ∧ (2 ≤ n → a < b) ∧ 0 ≤ a ∧ (1 ≤ n → 1 ≤ a) := by
  have hsucc : (n + 1).toNat = n.toNat + 1 := by omega
  refine ⟨_, _, fibonacci_ok n h, fibonacci_ok (n + 1) (by omega), ?_, ?_, ?_, ?_⟩
  · rw [hsucc, fibSpec_eq_fib, fibSpec_eq_fib]
    exact_mod_cast @Nat.fib_le_fib_succ n.toNat
  · intro h2
    rw [hsucc, fibSpec_eq_fib, fibSpec_eq_fib]
    have hn : 2 ≤ n.toNat := by omega
    exact_mod_cast Nat.fib_lt_fib_succ hn
  · exact Int.ofNat_nonneg _
  · intro h1
    rw [fibSpec_eq_fib]
    have hp : 0 < Nat.fib n.toNat := Nat.fib_pos.mpr (by omega)
    exact_mod_cast hp

/-- Witness for C9 at n = 3. -/
theorem fibonacci_monotone_w :
    ∃ a b : Int, fibonacci 3 = Except.ok a ∧ fibonacci (3 + 1) = Except.ok b ∧
      a ≤ b ∧ ((2 : Int) ≤ 3 → a < b) ∧ 0 ≤ a ∧ ((1 : Int) ≤ 3 → 1 ≤ a) :=
  fibonacci_monotone 3 (by norm_num)

/-- C10: the computation is exact arbitrary-precision arithmetic: for every
n ≥ 0, the returned value is the exact mathematical Fibonacci number
`Nat.fib n`, with no overflow, wraparound or saturation. -/
theorem fibonacci_exact_unbounded (n : Int) (h : 0 ≤ n) :
    fibonacci n = Except.ok ((Nat.fib n.toNat : Nat) : Int) := by
  rw [fibonacci_ok n h, fibSpec_eq_fib]

/-- Witness for C10 at n = 25: the exact value 75025, beyond what a toy
fixed-width model could misrepresent without detection. -/
theorem fibonacci_exact_unbounded_w : fibonacci 25 = Except.ok 75025 := by
  have h25 : Nat.fib ((25 : Int).toNat) = 75025 := by rfl
  have hh := fibonacci_exact_unbounded 25 (by norm_num)
  rw [hh, h25]
  norm_num
